import Mathlib

/-!
Verification of the story-publishing platform (`letmesee`).

The repository ships a React front-end (`frontend/src/App.js`), deployment
scripts and documentation.  The FastAPI backend (`backend/server.py`) is
referenced by the deployment guide and by every front-end call but its file is
not part of the sources here, so the server-side operations (`submit`,
`moderate`, `toggleLike`, `listPublic`) are modelled from the specification,
while the front-end handlers (`handleLike`, `moderateStory`, the
`AuthProvider` verification effect, the `WriteStory` submit guard and the
`dangerouslySetInnerHTML` render sites) are embedded directly from
`frontend/src/App.js`.
-/

/-- Story lifecycle status, spec section 3: `status ∈ {pending, approved, rejected}`. -/
inductive Status where
  | pending : Status
  | approved : Status
  | rejected : Status
deriving DecidableEq, Repr

/-- A moderation decision, spec section 4.2: `decision ∈ {approved, rejected}`. -/
inductive Decision where
  | approved : Decision
  | rejected : Decision
deriving DecidableEq, Repr

/-- Error taxonomy of spec section 7. -/
inductive Err where
  | invalidInput : Err
  | unauthorized : Err
  | forbidden : Err
  | notFound : Err
  | conflict : Err
  | invalidState : Err
deriving DecidableEq, Repr

/-- The fields of a user record that the moderation workflow reads
(spec section 3; `password_hash`, `email`, `created_at` are never consulted
by the operations verified here). -/
structure User where
  id : Nat
  username : String
  is_admin : Bool
deriving DecidableEq, Repr

/-- A story record, spec section 3.  `likes` is the set of user ids that
currently like the story, kept as a duplicate-free list. -/
structure Story where
  id : Nat
  author_id : Nat
  title : String
  content : String
  status : Status
  created_at : Nat
  approved_at : Option Nat
  likes : List Nat
deriving DecidableEq, Repr

/-- The story store (spec section 2: "Story store: holds story records keyed
by id, with status field"). -/
structure Store where
  stories : List Story
deriving DecidableEq, Repr

/-- Look a story up by id. -/
def findStory (st : Store) (sid : Nat) : Option Story :=
  st.stories.find? (fun s => s.id = sid)

/-- Replace every story whose id matches `sid` by its image under `f`
(ids are unique in every reachable store, so this touches one record). -/
def updateStory (sid : Nat) (f : Story → Story) (st : Store) : Store :=
  Store.mk (st.stories.map (fun t => if t.id = sid then f t else t))

/-- A story id strictly larger than every id in the list. -/
def freshIdList (l : List Story) : Nat :=
  l.foldr (fun s m => max (s.id + 1) m) 0

/-- The fresh id the store hands to a newly submitted story ("id (unique)",
spec section 3). -/
def freshId (st : Store) : Nat :=
  freshIdList st.stories

/-- Removal of leading and trailing whitespace — the transformation both the
JavaScript `trim()` of `WriteStory.handleSubmit` and the spec's "empty after
trimming whitespace" apply, written over the character list so that it
evaluates. -/
def trimWS (s : String) : String :=
  String.mk (((s.data.dropWhile Char.isWhitespace).reverse.dropWhile Char.isWhitespace).reverse)

/-- Modelled from the spec: `backend/server.py` is absent from the sources;
spec section 4.2: "`submit(author, title, content) → Story(pending)` …
Fails with `InvalidInput` if title or content empty after trimming
whitespace.  Side effect: appends a new Story row."  Authentication is
modelled by requiring a `User` argument.  The pair returned is the call's
result together with the store after the call. -/
def submit (author : User) (title content : String) (now : Nat) (st : Store) :
    Except Err Story × Store :=
  if trimWS title = "" ∨ trimWS content = "" then (Except.error Err.invalidInput, st)
  else
    let s : Story :=
      { id := freshId st, author_id := author.id, title := title, content := content,
        status := Status.pending, created_at := now, approved_at := none, likes := [] }
    (Except.ok s, Store.mk (st.stories ++ [s]))

/-- The record update a moderation decision applies, spec section 4.2:
"On `approved`: sets status, stamps `approved_at` = now.  On `rejected`:
sets status only." -/
def applyDecision (d : Decision) (now : Nat) (t : Story) : Story :=
  match d with
  | Decision.approved => { t with status := Status.approved, approved_at := some now }
  | Decision.rejected => { t with status := Status.rejected }

/-- Modelled from the spec: `backend/server.py` is absent from the sources;
spec section 4.2: "`moderate(moderator, story_id, decision)` … requires
`moderator.is_admin = true`, else fails with `Forbidden`.  Fails with
`NotFound` if story_id absent.  Fails with `InvalidState` if
story.status ≠ pending." -/
def moderate (m : User) (sid : Nat) (d : Decision) (now : Nat) (st : Store) :
    Except Err Story × Store :=
  if m.is_admin then
    match findStory st sid with
    | none => (Except.error Err.notFound, st)
    | some s =>
      if s.status = Status.pending then
        (Except.ok (applyDecision d now s), updateStory sid (applyDecision d now) st)
      else (Except.error Err.invalidState, st)
  else (Except.error Err.forbidden, st)

/-- The like-set flip of spec section 4.3: "If user id already present in
the story's like set, remove it (unlike); else add it (like)". -/
def toggledLikes (uid : Nat) (likes : List Nat) : List Nat :=
  if uid ∈ likes then likes.filter (fun x => x ≠ uid) else uid :: likes

/-- Modelled from the spec: `backend/server.py` is absent from the sources;
spec section 4.3: "`toggleLike(user, story_id) → {likes: count}` … Fails with
`NotFound` if story absent.  Fails with `InvalidState` if
story.status ≠ approved.  If user id already present in the story's like
set, remove it (unlike); else add it (like).  Returns updated count."
Authentication is modelled by requiring a `User` argument. -/
def toggleLike (u : User) (sid : Nat) (st : Store) : Except Err Nat × Store :=
  match findStory st sid with
  | none => (Except.error Err.notFound, st)
  | some s =>
    if s.status = Status.approved then
      (Except.ok (toggledLikes u.id s.likes).length,
       updateStory sid (fun t => { t with likes := toggledLikes u.id s.likes }) st)
    else (Except.error Err.invalidState, st)

/-- The sort key `listPublic` orders by: for approved stories `approved_at`
is always set (see the reachability invariant below) and `getD 0` reads it. -/
def approvedAtN (s : Story) : Nat :=
  s.approved_at.getD 0

/-- The publication order of spec section 4.2: "`approved_at` descending
(most recent first); ties broken by id for determinism". -/
def pubLE (a b : Story) : Prop :=
  approvedAtN b < approvedAtN a ∨ (approvedAtN a = approvedAtN b ∧ a.id ≤ b.id)

instance : DecidableRel pubLE := fun a b =>
  inferInstanceAs (Decidable (approvedAtN b < approvedAtN a ∨
    (approvedAtN a = approvedAtN b ∧ a.id ≤ b.id)))

instance : IsTotal Story pubLE where
  total a b := by
    unfold pubLE
    rcases Nat.lt_trichotomy (approvedAtN a) (approvedAtN b) with h | h | h
    · exact Or.inr (Or.inl h)
    · rcases Nat.le_total a.id b.id with h2 | h2
      · exact Or.inl (Or.inr ⟨h, h2⟩)
      · exact Or.inr (Or.inr ⟨h.symm, h2⟩)
    · exact Or.inl (Or.inl h)

instance : IsTrans Story pubLE where
  trans a b c hab hbc := by
    unfold pubLE at *
    omega

/-- Modelled from the spec: `backend/server.py` is absent from the sources;
spec section 4.2: "`listPublic() → ordered sequence of approved stories`,
ordered by `approved_at` descending (most recent first); ties broken by id
for determinism.  No side effects, no auth required."  A pure function of
the store: it performs no writes. -/
def listPublic (st : Store) : List Story :=
  List.insertionSort pubLE (st.stories.filter (fun s => decide (s.status = Status.approved)))

/-! ### Front-end embeddings, from `frontend/src/App.js` -/

/-- The story fields `PublicStories` reads (App.js lines 426-450): id,
title, content, author_username, approved_at, likes (the count returned by
the server) and `liked_by`, which the JSON may omit — the component guards
for that with `story.liked_by || []` and `story.liked_by?.includes`, so the
field is embedded as an `Option`. -/
structure FrontStory where
  id : Nat
  title : String
  content : String
  author_username : String
  approved_at : String
  likes : Nat
  liked_by : Option (List Nat)
deriving DecidableEq, Repr

/-- The state update of `PublicStories.handleLike` (App.js lines 400-406)
once the like request has answered with `data.likes`:
`setStories(stories.map(story => story.id === storyId ?
\x7b ...story, likes: data.likes, liked_by: story.liked_by || [] \x7d : story))`. -/
def handleLikeUpdate (stories : List FrontStory) (storyId : Nat) (dataLikes : Nat) :
    List FrontStory :=
  stories.map (fun story =>
    if story.id = storyId then
      { story with likes := dataLikes, liked_by := some (story.liked_by.getD []) }
    else story)

/-- The liked/unliked highlight of the like button (App.js line 443):
`story.liked_by?.includes(user.id)`; an absent `liked_by` reads as not
liked. -/
def likedHighlight (uid : Nat) (story : FrontStory) : Bool :=
  (story.liked_by.getD []).contains uid

/-- The validation guard of `WriteStory.handleSubmit` (App.js lines 305-308):
`if (!title.trim() || !content.trim())` the handler reports "Please fill in
both title and content" and returns without issuing the request; otherwise
it posts `\x7b title, content \x7d` verbatim.  `none` is the no-request
outcome, `some` carries the posted body. -/
def handleSubmitBody (title content : String) : Option (String × String) :=
  if trimWS title = "" ∨ trimWS content = "" then none else some (title, content)

/-- The verification outcome the `AuthProvider` effect observes for a stored
token (App.js lines 14-35): the `/auth/me` response parsed to a body with a
`detail` field (an error), a body carrying the user object, or a rejected
fetch. -/
inductive VerifyOutcome where
  | detail : VerifyOutcome
  | okUser : User → VerifyOutcome
  | netError : VerifyOutcome
deriving DecidableEq, Repr

/-- The `AuthProvider` state the effect manipulates: the `user` and `token`
React states and the `token` key of `localStorage`. -/
structure AuthState where
  user : Option User
  token : Option String
  storedToken : Option String
deriving DecidableEq, Repr

/-- The token-verification effect of `AuthProvider` (App.js lines 14-35):
runs only when a token is present; on a body with `detail` or on a network
failure it removes the stored token and sets the token state to null; on a
user body it sets the user state. -/
def verifyEffect (st : AuthState) (o : VerifyOutcome) : AuthState :=
  match st.token with
  | none => st
  | some _ =>
    match o with
    | VerifyOutcome.detail => { st with storedToken := none, token := none }
    | VerifyOutcome.okUser u => { st with user := some u }
    | VerifyOutcome.netError => { st with storedToken := none, token := none }

/-- The three ways the moderation request of `AdminPanel.moderateStory`
(App.js lines 557-574) can come back: `res.ok`, a non-ok response, or a
rejected fetch (caught and logged). -/
inductive ModResponse where
  | ok : ModResponse
  | notOk : ModResponse
  | netError : ModResponse
deriving DecidableEq, Repr

/-- The story fields `AdminPanel` reads from a pending story. -/
structure PendingStory where
  id : Nat
  title : String
  content : String
  author_username : String
  created_at : String
deriving DecidableEq, Repr

/-- The pending-list state update of `AdminPanel.moderateStory` (App.js
lines 568-570): only on `res.ok` it runs
`setPendingStories(pendingStories.filter(story => story.id !== storyId))`;
a non-ok response or a caught network error leaves the state untouched. -/
def moderateStoryUpdate (r : ModResponse) (storyId : Nat)
    (pendingStories : List PendingStory) : List PendingStory :=
  match r with
  | ModResponse.ok => pendingStories.filter (fun story => story.id ≠ storyId)
  | ModResponse.notOk => pendingStories
  | ModResponse.netError => pendingStories

/-- The markup `PublicStories` hands to the DOM for a story (App.js lines
433-436): `dangerouslySetInnerHTML=\x7b\x7b __html: story.content \x7d\x7d` —
the stored content verbatim, with no transformation.  `MyStories` (lines
527-530) and `AdminPanel` (lines 616-619) render the same way. -/
def publicStoryInnerHTML (story : FrontStory) : String :=
  story.content

/-- Modelled from the spec: `backend/server.py` is absent from the sources;
spec section 3 stores a story's content as "rich-text markup, opaque blob",
i.e. the submitted markup verbatim, and the `submit` transition of section
4.2 applies no transformation to it. -/
def storedContent (submitted : String) : String :=
  submitted

/-! ### Store invariants and reachability -/

/-- Story ids are pairwise distinct ("id (unique)", spec section 3). -/
def idsNodup (st : Store) : Prop :=
  (st.stories.map Story.id).Nodup

/-- The invariant of spec section 3: "`approved_at` set if and only if
status = approved; cleared/absent otherwise". -/
def approvedAtConsistent (st : Store) : Prop :=
  ∀ s ∈ st.stories, (s.approved_at.isSome = true ↔ s.status = Status.approved)

/-- The store invariant carried through every operation. -/
def storeInv (st : Store) : Prop :=
  idsNodup st ∧ approvedAtConsistent st

/-- The stores reachable from an empty store by the three state-changing
operations (failing calls return the store unchanged, so they are covered
by the same constructors). -/
inductive Reachable : Store → Prop where
  | init : Reachable (Store.mk [])
  | step_submit (a : User) (title content : String) (now : Nat) (st : Store) :
      Reachable st → Reachable (submit a title content now st).2
  | step_moderate (m : User) (sid : Nat) (d : Decision) (now : Nat) (st : Store) :
      Reachable st → Reachable (moderate m sid d now st).2
  | step_toggle (u : User) (sid : Nat) (st : Store) :
      Reachable st → Reachable (toggleLike u sid st).2

theorem mem_lt_freshIdList (t : Story) (l : List Story) (ht : t ∈ l) :
    t.id < freshIdList l := by
  induction l with
  | nil => cases ht
  | cons h tl ih =>
    have hstep : freshIdList (h :: tl) = max (h.id + 1) (freshIdList tl) := rfl
    rcases List.mem_cons.mp ht with rfl | hm
    · rw [hstep]
      exact Nat.lt_of_lt_of_le (Nat.lt_succ_self _) (Nat.le_max_left _ _)
    · rw [hstep]
      exact Nat.lt_of_lt_of_le (ih hm) (Nat.le_max_right _ _)

theorem updateStory_map_ids (sid : Nat) (f : Story → Story)
    (hf : ∀ t, (f t).id = t.id) (st : Store) :
    (updateStory sid f st).stories.map Story.id = st.stories.map Story.id := by
  unfold updateStory
  rw [List.map_map]
  apply List.map_congr_left
  intro t ht
  by_cases h : t.id = sid
  · simp [h, hf]
  · simp [h]

theorem findStory_updateStory (sid : Nat) (f : Story → Story)
    (hf : ∀ t, (f t).id = t.id) (st : Store) :
    findStory (updateStory sid f st) sid = (findStory st sid).map f := by
  obtain ⟨l⟩ := st
  unfold findStory updateStory
  induction l with
  | nil => rfl
  | cons h tl ih =>
    by_cases hh : h.id = sid
    · simp only [List.map_cons, if_pos hh]
      rw [List.find?_cons_of_pos _ (by simp [hf, hh]), List.find?_cons_of_pos _ (by simp [hh])]
      rfl
    · simp only [List.map_cons, if_neg hh]
      rw [List.find?_cons_of_neg _ (by simp [hh]), List.find?_cons_of_neg _ (by simp [hh])]
      exact ih

theorem findStory_id (st : Store) (sid : Nat) (s : Story)
    (hfind : findStory st sid = some s) : s.id = sid := by
  have := List.find?_some hfind
  simpa using this

theorem findStory_mem (st : Store) (sid : Nat) (s : Story)
    (hfind : findStory st sid = some s) : s ∈ st.stories :=
  List.mem_of_find?_eq_some hfind

theorem eq_found_of_id_eq (st : Store) (sid : Nat) (s t : Story)
    (hnd : idsNodup st) (hfind : findStory st sid = some s)
    (ht : t ∈ st.stories) (hid : t.id = sid) : t = s := by
  have hs := findStory_mem st sid s hfind
  have hsid := findStory_id st sid s hfind
  exact List.inj_on_of_nodup_map hnd ht hs (by rw [hid, hsid])

theorem storeInv_submit (a : User) (title content : String) (now : Nat) (st : Store)
    (h : storeInv st) : storeInv (submit a title content now st).2 := by
  obtain ⟨hnd, hac⟩ := h
  by_cases hg : trimWS title = "" ∨ trimWS content = ""
  · simp only [submit, if_pos hg]
    exact ⟨hnd, hac⟩
  · simp only [submit, if_neg hg]
    constructor
    · unfold idsNodup at *
      simp only [List.map_append, List.map_cons, List.map_nil]
      rw [List.nodup_append]
      refine ⟨hnd, List.nodup_singleton _, ?_⟩
      intro x hx hx2
      obtain ⟨t, ht, rfl⟩ := List.mem_map.mp hx
      have hlt := mem_lt_freshIdList t st.stories ht
      simp only [List.mem_singleton] at hx2
      simp only [freshId] at hx2
      omega
    · intro t ht
      rcases List.mem_append.mp ht with h1 | h1
      · exact hac t h1
      · simp only [List.mem_singleton] at h1
        subst h1
        simp

theorem storeInv_moderate (m : User) (sid : Nat) (d : Decision) (now : Nat) (st : Store)
    (h : storeInv st) : storeInv (moderate m sid d now st).2 := by
  obtain ⟨hnd, hac⟩ := h
  unfold moderate
  by_cases hm : m.is_admin
  · simp only [if_pos hm]
    cases hfind : findStory st sid with
    | none => exact ⟨hnd, hac⟩
    | some s =>
      by_cases hp : s.status = Status.pending
      · simp only [if_pos hp]
        constructor
        · unfold idsNodup at *
          rw [updateStory_map_ids sid _ (fun t => by cases d <;> simp [applyDecision]) st]
          exact hnd
        · intro t' ht'
          unfold updateStory at ht'
          simp only [List.mem_map] at ht'
          obtain ⟨t, ht, rfl⟩ := ht'
          by_cases hid : t.id = sid
          · rw [if_pos hid]
            have hts : t = s := eq_found_of_id_eq st sid s t hnd hfind ht hid
            subst hts
            have h2 := hac t ht
            cases d
            · simp [applyDecision]
            · simp only [applyDecision]
              constructor
              · intro hsome
                exact absurd (h2.mp hsome) (by rw [hp]; simp)
              · intro hcontra
                cases hcontra
          · rw [if_neg hid]
            exact hac t ht
      · simp only [if_neg hp]
        exact ⟨hnd, hac⟩
  · simp only [if_neg hm]
    exact ⟨hnd, hac⟩

theorem storeInv_toggleLike (u : User) (sid : Nat) (st : Store)
    (h : storeInv st) : storeInv (toggleLike u sid st).2 := by
  obtain ⟨hnd, hac⟩ := h
  unfold toggleLike
  cases hfind : findStory st sid with
  | none => exact ⟨hnd, hac⟩
  | some s =>
    by_cases ha : s.status = Status.approved
    · simp only [if_pos ha]
      constructor
      · unfold idsNodup at *
        rw [updateStory_map_ids sid _ (fun t => by simp) st]
        exact hnd
      · intro t' ht'
        unfold updateStory at ht'
        simp only [List.mem_map] at ht'
        obtain ⟨t, ht, rfl⟩ := ht'
        by_cases hid : t.id = sid
        · rw [if_pos hid]
          simpa using hac t ht
        · rw [if_neg hid]
          exact hac t ht
    · simp only [if_neg ha]
      exact ⟨hnd, hac⟩

theorem reachable_storeInv (st : Store) (h : Reachable st) : storeInv st := by
  induction h with
  | init =>
    constructor
    · simp [idsNodup]
    · intro s hs
      simp at hs
  | step_submit a title content now st hr ih => exact storeInv_submit a title content now st ih
  | step_moderate m sid d now st hr ih => exact storeInv_moderate m sid d now st ih
  | step_toggle u sid st hr ih => exact storeInv_toggleLike u sid st ih

/-! ### Facts about the like-set flip -/

theorem filter_ne_eq_self_of_not_mem (a : Nat) (l : List Nat) (h : a ∉ l) :
    l.filter (fun x => x ≠ a) = l := by
  apply List.filter_eq_self.mpr
  intro x hx
  have hxa : x ≠ a := fun he => h (he ▸ hx)
  simpa using hxa

theorem not_mem_filter_ne (a : Nat) (l : List Nat) :
    a ∉ l.filter (fun x => x ≠ a) := by
  intro hmem
  have := List.mem_filter.mp hmem
  simp at this

theorem length_filter_ne_add_one (a : Nat) (l : List Nat)
    (hnd : l.Nodup) (hm : a ∈ l) :
    (l.filter (fun x => x ≠ a)).length + 1 = l.length := by
  induction l with
  | nil => cases hm
  | cons h tl ih =>
    rw [List.nodup_cons] at hnd
    rcases List.mem_cons.mp hm with rfl | hm2
    · have httl : tl.filter (fun x => x ≠ a) = tl :=
        filter_ne_eq_self_of_not_mem a tl hnd.1
      simp [List.filter_cons, httl]
      intro x hx he
      exact hnd.1 (he ▸ hx)
    · have hne : h ≠ a := fun he => hnd.1 (he ▸ hm2)
      have hih := ih hnd.2 hm2
      simp [List.filter_cons, hne]
      simp at hih
      omega

theorem toggledLikes_of_mem (uid : Nat) (likes : List Nat) (h : uid ∈ likes) :
    toggledLikes uid likes = likes.filter (fun x => x ≠ uid) :=
  if_pos h

theorem toggledLikes_of_not_mem (uid : Nat) (likes : List Nat) (h : uid ∉ likes) :
    toggledLikes uid likes = uid :: likes :=
  if_neg h

theorem count_toggledLikes_le_one (uid : Nat) (likes : List Nat) :
    (toggledLikes uid likes).count uid ≤ 1 := by
  by_cases h : uid ∈ likes
  · rw [toggledLikes_of_mem uid likes h]
    rw [List.count_eq_zero.mpr (not_mem_filter_ne uid likes)]
    exact Nat.zero_le 1
  · rw [toggledLikes_of_not_mem uid likes h]
    rw [List.count_cons_self, List.count_eq_zero.mpr h]

theorem mem_toggledLikes (uid : Nat) (likes : List Nat) :
    uid ∈ toggledLikes uid likes ↔ uid ∉ likes := by
  by_cases h : uid ∈ likes
  · rw [toggledLikes_of_mem uid likes h]
    simp [not_mem_filter_ne uid likes, h]
  · rw [toggledLikes_of_not_mem uid likes h]
    simp [h]

theorem toggledLikes_twice_length (uid : Nat) (likes : List Nat) (hnd : likes.Nodup) :
    (toggledLikes uid (toggledLikes uid likes)).length = likes.length := by
  by_cases h : uid ∈ likes
  · rw [toggledLikes_of_mem uid likes h,
      toggledLikes_of_not_mem uid _ (not_mem_filter_ne uid likes)]
    rw [List.length_cons]
    exact length_filter_ne_add_one uid likes hnd h
  · rw [toggledLikes_of_not_mem uid likes h,
      toggledLikes_of_mem uid _ (List.mem_cons_self uid likes)]
    rw [List.filter_cons]
    simp [filter_ne_eq_self_of_not_mem uid likes h]
    intro x hx he
    exact h (he ▸ hx)

theorem mem_toggledLikes_twice (uid : Nat) (likes : List Nat) :
    uid ∈ toggledLikes uid (toggledLikes uid likes) ↔ uid ∈ likes := by
  rw [mem_toggledLikes]
  simp [mem_toggledLikes]

theorem toggleLike_eq (u : User) (sid : Nat) (st : Store) (s : Story)
    (hfind : findStory st sid = some s) (happ : s.status = Status.approved) :
    toggleLike u sid st =
      (Except.ok (toggledLikes u.id s.likes).length,
       updateStory sid (fun t => { t with likes := toggledLikes u.id s.likes }) st) := by
  simp only [toggleLike, hfind, if_pos happ]

/-- C1 (amended): for every user and approved story with a duplicate-free
like set, two `toggleLike` calls in sequence both succeed, the second
returns a like count equal to the count before the first call, and the
user's membership in the like set is restored to its value before the first
call — in particular the user is not a member afterwards exactly when they
were not a member before (the original claim's unconditional non-membership
fails when the user already liked the story, see the counterexample).
After a single toggle the user contributes at most one unit to the count. -/
theorem toggleLike_twice_count (u : User) (sid : Nat) (st : Store) (s : Story)
    (hfind : findStory st sid = some s) (happ : s.status = Status.approved)
    (hnd : s.likes.Nodup) :
    ∃ c1 st1 s1 c2 st2 s2,
      toggleLike u sid st = (Except.ok c1, st1) ∧
      findStory st1 sid = some s1 ∧
      s1.likes.count u.id ≤ 1 ∧
      toggleLike u sid st1 = (Except.ok c2, st2) ∧
      findStory st2 sid = some s2 ∧
      c2 = s.likes.length ∧
      (u.id ∈ s2.likes ↔ u.id ∈ s.likes) := by
  have e1 := toggleLike_eq u sid st s hfind happ
  have hfind1 : findStory (updateStory sid
      (fun t => { t with likes := toggledLikes u.id s.likes }) st) sid =
      some { s with likes := toggledLikes u.id s.likes } := by
    rw [findStory_updateStory sid
      (fun t => { t with likes := toggledLikes u.id s.likes }) (fun t => rfl) st, hfind]
    rfl
  have e2 := toggleLike_eq u sid _ _ hfind1 happ
  have hfind2 : findStory (updateStory sid
      (fun t => { t with likes := toggledLikes u.id ({ s with likes := toggledLikes u.id s.likes } : Story).likes })
      (updateStory sid (fun t => { t with likes := toggledLikes u.id s.likes }) st)) sid =
      some { s with likes := toggledLikes u.id (toggledLikes u.id s.likes) } := by
    rw [findStory_updateStory sid
      (fun t => { t with likes := toggledLikes u.id ({ s with likes := toggledLikes u.id s.likes } : Story).likes })
      (fun t => rfl) _, hfind1]
    rfl
  refine ⟨_, _, _, _, _, _, e1, hfind1, ?_, e2, hfind2, ?_, ?_⟩
  · exact count_toggledLikes_le_one u.id s.likes
  · exact toggledLikes_twice_length u.id s.likes hnd
  · exact mem_toggledLikes_twice u.id s.likes

/-! ### Concrete records used by witnesses and counterexamples -/

/-- A non-admin user (registration never sets the admin flag). -/
def aliceUser : User :=
  { id := 1, username := "alice", is_admin := false }

/-- The provisioned administrator account (default credentials
`admin`/`admin123`, README and deployment guide). -/
def adminUser : User :=
  { id := 9, username := "admin", is_admin := true }

/-- An approved story already liked by user 1. -/
def likedStory : Story :=
  { id := 5, author_id := 2, title := "t", content := "c",
    status := Status.approved, created_at := 0, approved_at := some 3, likes := [1] }

/-- An approved story nobody likes yet. -/
def freshStory : Story :=
  { id := 7, author_id := 2, title := "t", content := "c",
    status := Status.approved, created_at := 0, approved_at := some 5, likes := [] }

/-- A pending story awaiting moderation. -/
def pendingStory : Story :=
  { id := 4, author_id := 1, title := "t", content := "c",
    status := Status.pending, created_at := 2, approved_at := none, likes := [] }

/-- A public story as `PublicStories` receives it, with `liked_by` absent
from the JSON. -/
def frontStoryNoLikedBy : FrontStory :=
  { id := 1, title := "t", content := "c", author_username := "a",
    approved_at := "d", likes := 0, liked_by := none }

/-- A story in the admin pending queue. -/
def pendingFront : PendingStory :=
  { id := 3, title := "t", content := "c", author_username := "a", created_at := "d" }

/-- An `AuthProvider` state holding a stored, not yet verified token. -/
def storedTokenState : AuthState :=
  { user := none, token := some "tok", storedToken := some "tok" }

/-- A script payload a story's rich-text content can carry. -/
def scriptPayload : String :=
  "<script>alert(1)</script>"

/-- The public story carrying the stored script payload as its content. -/
def scriptFront : FrontStory :=
  { id := 1, title := "T", content := storedContent scriptPayload,
    author_username := "a", approved_at := "d", likes := 0, liked_by := none }

/-! ### Claims -/

/-- C1, counterexample to the claim as stated: user 1 already likes the
approved story `likedStory`.  Two `toggleLike` calls in sequence return the
like count unchanged (1), but after the second call user 1 IS a member of
the like set again, refuting "after the second call u is not a member of
s.likes". -/
theorem toggleLike_twice_membership_cex :
    likedStory.status = Status.approved ∧ likedStory.likes.Nodup ∧
    aliceUser.id ∈ likedStory.likes ∧
    toggleLike aliceUser 5 (Store.mk [likedStory]) =
      (Except.ok 0, Store.mk [{ likedStory with likes := [] }]) ∧
    toggleLike aliceUser 5 (Store.mk [{ likedStory with likes := ([] : List Nat) }]) =
      (Except.ok 1, Store.mk [{ likedStory with likes := [1] }]) ∧
    aliceUser.id ∈ ({ likedStory with likes := [1] } : Story).likes :=
  ⟨rfl, by decide, by decide, rfl, rfl, by decide⟩

/-- C2: for an admin moderator and a story present in the store, (a) if the
story's status is not `pending` (it is `approved` or `rejected`, the
terminal states), any moderation call fails with `InvalidState` and leaves
the store unchanged; (b) if it is `pending`, approving it succeeds and a
subsequent `rejected` call fails with `InvalidState`, leaving the stored
status `approved`. -/
theorem moderate_terminal (m : User) (sid now now2 : Nat) (d : Decision) (st : Store) (s : Story)
    (hadm : m.is_admin = true) (hfind : findStory st sid = some s) :
    (s.status ≠ Status.pending → moderate m sid d now st = (Except.error Err.invalidState, st)) ∧
    (s.status = Status.pending →
      ∃ s1 st1, moderate m sid Decision.approved now st = (Except.ok s1, st1) ∧
        s1.status = Status.approved ∧
        findStory st1 sid = some s1 ∧
        moderate m sid Decision.rejected now2 st1 = (Except.error Err.invalidState, st1)) := by
  constructor
  · intro hnp
    simp only [moderate, hadm, if_true, hfind, if_neg hnp]
  · intro hp
    have hf1 : findStory (updateStory sid (applyDecision Decision.approved now) st) sid =
        some (applyDecision Decision.approved now s) := by
      rw [findStory_updateStory sid (applyDecision Decision.approved now) (fun t => rfl) st,
        hfind]
      rfl
    refine ⟨applyDecision Decision.approved now s,
      updateStory sid (applyDecision Decision.approved now) st, ?_, rfl, hf1, ?_⟩
    · simp only [moderate, hadm, if_true, hfind, if_pos hp]
    · have hnp2 : (applyDecision Decision.approved now s).status ≠ Status.pending := by
        simp [applyDecision]
      simp only [moderate, hadm, if_true, hf1, if_neg hnp2]

/-- Witness for C2: the admin approves the pending story `pendingStory`,
then the rejection attempt fails with `InvalidState`. -/
theorem moderate_terminal_witness :
    adminUser.is_admin = true ∧ findStory (Store.mk [pendingStory]) 4 = some pendingStory ∧
    ((pendingStory.status ≠ Status.pending →
        moderate adminUser 4 Decision.rejected 10 (Store.mk [pendingStory]) =
          (Except.error Err.invalidState, Store.mk [pendingStory])) ∧
     (pendingStory.status = Status.pending →
        ∃ s1 st1, moderate adminUser 4 Decision.approved 10 (Store.mk [pendingStory]) =
            (Except.ok s1, st1) ∧
          s1.status = Status.approved ∧
          findStory st1 4 = some s1 ∧
          moderate adminUser 4 Decision.rejected 11 st1 = (Except.error Err.invalidState, st1))) :=
  ⟨rfl, rfl,
    moderate_terminal adminUser 4 10 11 Decision.rejected (Store.mk [pendingStory]) pendingStory
      rfl rfl⟩

/-- C3: `listPublic` contains a story exactly when it is in the store with
status `approved` (so never a story of any other status), it is exactly the
approved rows (a permutation of the filter, so multiplicities agree), and it
is sorted by the publication order `pubLE` (`approved_at` descending, ties
broken by id).  `listPublic` is a pure function of the store, so it has no
side effects. -/
theorem listPublic_approved_sorted (st : Store) :
    (∀ s, s ∈ listPublic st ↔ (s ∈ st.stories ∧ s.status = Status.approved)) ∧
    (listPublic st).Perm (st.stories.filter (fun s => decide (s.status = Status.approved))) ∧
    List.Sorted pubLE (listPublic st) := by
  unfold listPublic
  refine ⟨?_, List.perm_insertionSort pubLE _, List.sorted_insertionSort pubLE _⟩
  intro s
  rw [(List.perm_insertionSort pubLE _).mem_iff]
  simp

/-- Witness for C3 at a concrete store holding one approved and one pending
story. -/
theorem listPublic_approved_sorted_witness :
    (∀ s, s ∈ listPublic (Store.mk [likedStory, pendingStory]) ↔
      (s ∈ (Store.mk [likedStory, pendingStory]).stories ∧ s.status = Status.approved)) ∧
    (listPublic (Store.mk [likedStory, pendingStory])).Perm
      ((Store.mk [likedStory, pendingStory]).stories.filter
        (fun s => decide (s.status = Status.approved))) ∧
    List.Sorted pubLE (listPublic (Store.mk [likedStory, pendingStory])) :=
  listPublic_approved_sorted (Store.mk [likedStory, pendingStory])

/-- C4: a moderation call by an authenticated non-admin user fails with
`Forbidden`, for every story id, decision and store, and returns the store
unchanged — no story's status changes. -/
theorem moderate_nonadmin_forbidden (m : User) (sid : Nat) (d : Decision) (now : Nat)
    (st : Store) (hm : m.is_admin = false) :
    moderate m sid d now st = (Except.error Err.forbidden, st) := by
  simp [moderate, hm]

/-- Witness for C4: the non-admin `aliceUser` cannot reject the pending
story. -/
theorem moderate_nonadmin_forbidden_witness :
    aliceUser.is_admin = false ∧
    moderate aliceUser 4 Decision.rejected 0 (Store.mk [pendingStory]) =
      (Except.error Err.forbidden, Store.mk [pendingStory]) :=
  ⟨rfl, moderate_nonadmin_forbidden aliceUser 4 Decision.rejected 0 (Store.mk [pendingStory]) rfl⟩

/-- C5: when title or content is empty after trimming whitespace, the
modelled `submit` fails with `InvalidInput` and returns the store unchanged
— no story record is created — and the front-end guard of
`WriteStory.handleSubmit` likewise refuses to issue the request. -/
theorem submit_invalid_input (author : User) (title content : String) (now : Nat) (st : Store)
    (h : trimWS title = "" ∨ trimWS content = "") :
    submit author title content now st = (Except.error Err.invalidInput, st) ∧
    handleSubmitBody title content = none := by
  constructor
  · simp only [submit, if_pos h]
  · simp only [handleSubmitBody, if_pos h]

/-- Witness for C5: a whitespace-only title. -/
theorem submit_invalid_input_witness :
    (trimWS " " = "" ∨ trimWS "body" = "") ∧
    (submit aliceUser " " "body" 0 (Store.mk []) = (Except.error Err.invalidInput, Store.mk []) ∧
     handleSubmitBody " " "body" = none) :=
  ⟨Or.inl rfl, submit_invalid_input aliceUser " " "body" 0 (Store.mk []) (Or.inl rfl)⟩

/-- C6: every story returned by a successful `submit` has status `pending`
and `approved_at` absent, and in every reachable store `approved_at` is set
exactly on the stories whose status is `approved`. -/
theorem submit_pending_approvedAt_invariant (a : User) (title content : String) (now : Nat)
    (st st1 st2 : Store) (s1 : Story)
    (hok : submit a title content now st = (Except.ok s1, st1)) (hr : Reachable st2) :
    s1.status = Status.pending ∧ s1.approved_at = none ∧ approvedAtConsistent st2 := by
  refine ⟨?_, ?_, (reachable_storeInv st2 hr).2⟩ <;>
  · by_cases hg : trimWS title = "" ∨ trimWS content = ""
    · rw [submit, if_pos hg] at hok
      simp at hok
    · simp only [submit, if_neg hg, Prod.mk.injEq, Except.ok.injEq] at hok
      obtain ⟨he, -⟩ := hok
      rw [← he]

/-- Witness for C6: submitting to the empty store, which is reachable. -/
theorem submit_pending_approvedAt_invariant_witness :
    submit aliceUser "T" "body" 0 (Store.mk []) =
      (Except.ok { id := 0, author_id := 1, title := "T", content := "body",
                   status := Status.pending, created_at := 0, approved_at := none, likes := [] },
       Store.mk [{ id := 0, author_id := 1, title := "T", content := "body",
                   status := Status.pending, created_at := 0, approved_at := none, likes := [] }]) ∧
    Reachable (Store.mk []) ∧
    ({ id := 0, author_id := 1, title := "T", content := "body",
       status := Status.pending, created_at := 0, approved_at := none,
       likes := ([] : List Nat) } : Story).status = Status.pending ∧
    ({ id := 0, author_id := 1, title := "T", content := "body",
       status := Status.pending, created_at := 0, approved_at := none,
       likes := ([] : List Nat) } : Story).approved_at = none ∧
    approvedAtConsistent (Store.mk []) := by
  have h := submit_pending_approvedAt_invariant aliceUser "T" "body" 0 (Store.mk [])
    (Store.mk [{ id := 0, author_id := 1, title := "T", content := "body",
                 status := Status.pending, created_at := 0, approved_at := none, likes := [] }])
    (Store.mk [])
    { id := 0, author_id := 1, title := "T", content := "body",
      status := Status.pending, created_at := 0, approved_at := none, likes := [] }
    rfl Reachable.init
  exact ⟨rfl, Reachable.init, h.1, h.2.1, h.2.2⟩

/-- C7: the claim asserts submitted story content is sanitized against an
allow-list before it can reach the DOM.  It is not: the front-end posts the
editor's `innerHTML` verbatim (`WriteStory.handleSubmit`), the store keeps
content as an opaque blob (spec section 3), and all three render sites pass
`story.content` verbatim to `dangerouslySetInnerHTML`, so a script payload
survives the whole pipeline unchanged. -/
theorem script_content_rendered_verbatim :
    handleSubmitBody "T" scriptPayload = some ("T", scriptPayload) ∧
    storedContent scriptPayload = scriptPayload ∧
    publicStoryInnerHTML scriptFront = scriptPayload :=
  ⟨rfl, rfl, rfl⟩

/-- C8, counterexample to the claim as stated: for a story whose `liked_by`
field is absent, `handleLike` rewrites it to the empty list
(`liked_by: story.liked_by || []`), so the matched story's `liked_by` field
does change. -/
theorem handleLike_liked_by_cex :
    handleLikeUpdate [frontStoryNoLikedBy] 1 1 =
      [{ frontStoryNoLikedBy with likes := 1, liked_by := some [] }] ∧
    ({ frontStoryNoLikedBy with likes := 1, liked_by := some ([] : List Nat) } :
      FrontStory).liked_by ≠ frontStoryNoLikedBy.liked_by :=
  ⟨rfl, by decide⟩

/-- C8 (amended): `handleLike` leaves every story at a position whose id
differs from the toggled id entirely unchanged; at the matched position
title, content, author_username and approved_at are unchanged, `liked_by`
is unchanged when present and only normalized from absent to the empty
list, and the liked/unliked highlight computed from `liked_by` is unchanged
for every user. -/
theorem handleLike_frame (stories : List FrontStory) (storyId dataLikes : Nat) (i : Nat)
    (h : i < stories.length) :
    ∃ h2 : i < (handleLikeUpdate stories storyId dataLikes).length,
      ((stories.get ⟨i, h⟩).id ≠ storyId →
        (handleLikeUpdate stories storyId dataLikes).get ⟨i, h2⟩ = stories.get ⟨i, h⟩) ∧
      ((handleLikeUpdate stories storyId dataLikes).get ⟨i, h2⟩).title =
        (stories.get ⟨i, h⟩).title ∧
      ((handleLikeUpdate stories storyId dataLikes).get ⟨i, h2⟩).content =
        (stories.get ⟨i, h⟩).content ∧
      ((handleLikeUpdate stories storyId dataLikes).get ⟨i, h2⟩).author_username =
        (stories.get ⟨i, h⟩).author_username ∧
      ((handleLikeUpdate stories storyId dataLikes).get ⟨i, h2⟩).approved_at =
        (stories.get ⟨i, h⟩).approved_at ∧
      (∀ l, (stories.get ⟨i, h⟩).liked_by = some l →
        ((handleLikeUpdate stories storyId dataLikes).get ⟨i, h2⟩).liked_by = some l) ∧
      (∀ uid, likedHighlight uid ((handleLikeUpdate stories storyId dataLikes).get ⟨i, h2⟩) =
        likedHighlight uid (stories.get ⟨i, h⟩)) := by
  have h2 : i < (handleLikeUpdate stories storyId dataLikes).length := by
    simpa [handleLikeUpdate] using h
  have hget : (handleLikeUpdate stories storyId dataLikes).get ⟨i, h2⟩ =
      (fun story => if story.id = storyId then
        { story with likes := dataLikes, liked_by := some (story.liked_by.getD []) }
      else story) (stories.get ⟨i, h⟩) := by
    simp [handleLikeUpdate]
  by_cases hid : (stories.get ⟨i, h⟩).id = storyId
  · have hget2 : (handleLikeUpdate stories storyId dataLikes).get ⟨i, h2⟩ = { stories.get ⟨i, h⟩ with likes := dataLikes, liked_by := some ((stories.get ⟨i, h⟩).liked_by.getD []) } := by
      rw [hget]
      simp only [if_pos hid]
    refine ⟨h2, fun hne => absurd hid hne, by rw [hget2], by rw [hget2], by rw [hget2],
      by rw [hget2], fun l hl => ?_, fun uid => ?_⟩
    · rw [hget2]
      show some ((stories.get ⟨i, h⟩).liked_by.getD []) = some l
      rw [hl]
      rfl
    · rw [hget2]
      simp [likedHighlight]
  · have hget2 : (handleLikeUpdate stories storyId dataLikes).get ⟨i, h2⟩ =
        stories.get ⟨i, h⟩ := by
      rw [hget]
      simp only [if_neg hid]
    exact ⟨h2, fun hne2 => hget2, by rw [hget2], by rw [hget2], by rw [hget2], by rw [hget2],
      fun l hl => by rw [hget2]; exact hl, fun uid => by rw [hget2]⟩

/-- Witness for C8 at a one-story list whose story id matches the toggle. -/
theorem handleLike_frame_witness :
    (0 : Nat) < [frontStoryNoLikedBy].length ∧
    ∃ h2 : (0 : Nat) < (handleLikeUpdate [frontStoryNoLikedBy] 1 1).length,
      (([frontStoryNoLikedBy].get ⟨0, by decide⟩).id ≠ 1 →
        (handleLikeUpdate [frontStoryNoLikedBy] 1 1).get ⟨0, h2⟩ =
          [frontStoryNoLikedBy].get ⟨0, by decide⟩) ∧
      ((handleLikeUpdate [frontStoryNoLikedBy] 1 1).get ⟨0, h2⟩).title =
        ([frontStoryNoLikedBy].get ⟨0, by decide⟩).title ∧
      ((handleLikeUpdate [frontStoryNoLikedBy] 1 1).get ⟨0, h2⟩).content =
        ([frontStoryNoLikedBy].get ⟨0, by decide⟩).content ∧
      ((handleLikeUpdate [frontStoryNoLikedBy] 1 1).get ⟨0, h2⟩).author_username =
        ([frontStoryNoLikedBy].get ⟨0, by decide⟩).author_username ∧
      ((handleLikeUpdate [frontStoryNoLikedBy] 1 1).get ⟨0, h2⟩).approved_at =
        ([frontStoryNoLikedBy].get ⟨0, by decide⟩).approved_at ∧
      (∀ l, ([frontStoryNoLikedBy].get ⟨0, by decide⟩).liked_by = some l →
        ((handleLikeUpdate [frontStoryNoLikedBy] 1 1).get ⟨0, h2⟩).liked_by = some l) ∧
      (∀ uid, likedHighlight uid ((handleLikeUpdate [frontStoryNoLikedBy] 1 1).get ⟨0, h2⟩) =
        likedHighlight uid ([frontStoryNoLikedBy].get ⟨0, by decide⟩)) :=
  ⟨by decide, handleLike_frame [frontStoryNoLikedBy] 1 1 0 (by decide)⟩

/-- C9: whenever a stored token is present and its verification answers
with an error body (`data.detail`) or the request fails, `AuthProvider`
removes the token from localStorage and nulls the token state; so after the
effect either the user state carries the verified identity or the token
state is null. -/
theorem verifyEffect_clears_invalid_token (st : AuthState) (o : VerifyOutcome) (t : String)
    (htok : st.token = some t) :
    ((o = VerifyOutcome.detail ∨ o = VerifyOutcome.netError) →
      (verifyEffect st o).storedToken = none ∧ (verifyEffect st o).token = none) ∧
    (∀ u, o = VerifyOutcome.okUser u → (verifyEffect st o).user = some u) ∧
    ((∃ u, o = VerifyOutcome.okUser u ∧ (verifyEffect st o).user = some u) ∨
      (verifyEffect st o).token = none) := by
  simp only [verifyEffect, htok]
  cases o with
  | detail =>
    exact ⟨fun _ => ⟨rfl, rfl⟩, fun u hu => VerifyOutcome.noConfusion hu, Or.inr rfl⟩
  | okUser u =>
    refine ⟨fun hc => ?_, fun v hv => ?_, Or.inl ⟨u, rfl, rfl⟩⟩
    · rcases hc with hc | hc <;> exact VerifyOutcome.noConfusion hc
    · injection hv with hv2
      subst hv2
      rfl
  | netError =>
    exact ⟨fun _ => ⟨rfl, rfl⟩, fun u hu => VerifyOutcome.noConfusion hu, Or.inr rfl⟩

/-- Witness for C9: a stored token whose verification returns an error
body. -/
theorem verifyEffect_clears_invalid_token_witness :
    storedTokenState.token = some "tok" ∧
    (((VerifyOutcome.detail = VerifyOutcome.detail ∨
        VerifyOutcome.detail = VerifyOutcome.netError) →
      (verifyEffect storedTokenState VerifyOutcome.detail).storedToken = none ∧
      (verifyEffect storedTokenState VerifyOutcome.detail).token = none) ∧
     (∀ u, VerifyOutcome.detail = VerifyOutcome.okUser u →
      (verifyEffect storedTokenState VerifyOutcome.detail).user = some u) ∧
     ((∃ u, VerifyOutcome.detail = VerifyOutcome.okUser u ∧
        (verifyEffect storedTokenState VerifyOutcome.detail).user = some u) ∨
      (verifyEffect storedTokenState VerifyOutcome.detail).token = none)) :=
  ⟨rfl, verifyEffect_clears_invalid_token storedTokenState VerifyOutcome.detail "tok" rfl⟩

/-- C10: `AdminPanel.moderateStory` filters the moderated id out of the
pending list exactly on an ok response: on ok the result is the filtered
list (the matched story is gone, every other story is retained), and any
non-ok response or network error leaves the list unchanged. -/
theorem moderateStory_pending_list_update (r : ModResponse) (storyId : Nat)
    (pending : List PendingStory) :
    (moderateStoryUpdate ModResponse.ok storyId pending =
      pending.filter (fun story => story.id ≠ storyId) ∧
     (∀ s ∈ moderateStoryUpdate ModResponse.ok storyId pending, s.id ≠ storyId) ∧
     (∀ s ∈ pending, s.id ≠ storyId → s ∈ moderateStoryUpdate ModResponse.ok storyId pending)) ∧
    (r ≠ ModResponse.ok → moderateStoryUpdate r storyId pending = pending) := by
  refine ⟨⟨rfl, ?_, ?_⟩, ?_⟩
  · intro s hs
    have hp := (List.mem_filter.mp hs).2
    simpa using hp
  · intro s hs hne
    exact List.mem_filter.mpr ⟨hs, by simpa using hne⟩
  · intro hne
    cases r with
    | ok => exact absurd rfl hne
    | notOk => rfl
    | netError => rfl

/-- Witness for C10 at a non-ok response and a one-story pending list. -/
theorem moderateStory_pending_list_update_witness :
    (moderateStoryUpdate ModResponse.ok 3 [pendingFront] =
      [pendingFront].filter (fun story => story.id ≠ 3) ∧
     (∀ s ∈ moderateStoryUpdate ModResponse.ok 3 [pendingFront], s.id ≠ 3) ∧
     (∀ s ∈ [pendingFront], s.id ≠ 3 → s ∈ moderateStoryUpdate ModResponse.ok 3 [pendingFront])) ∧
    (ModResponse.notOk ≠ ModResponse.ok →
      moderateStoryUpdate ModResponse.notOk 3 [pendingFront] = [pendingFront]) :=
  moderateStory_pending_list_update ModResponse.notOk 3 [pendingFront]

/-- Witness for C1 at the approved, not-yet-liked story `freshStory`. -/
theorem toggleLike_twice_count_witness :
    findStory (Store.mk [freshStory]) 7 = some freshStory ∧
    freshStory.status = Status.approved ∧ freshStory.likes.Nodup ∧
    (∃ c1 st1 s1 c2 st2 s2,
      toggleLike aliceUser 7 (Store.mk [freshStory]) = (Except.ok c1, st1) ∧
      findStory st1 7 = some s1 ∧
      s1.likes.count aliceUser.id ≤ 1 ∧
      toggleLike aliceUser 7 st1 = (Except.ok c2, st2) ∧
      findStory st2 7 = some s2 ∧
      c2 = freshStory.likes.length ∧
      (aliceUser.id ∈ s2.likes ↔ aliceUser.id ∈ freshStory.likes)) :=
  ⟨rfl, rfl, List.nodup_nil,
    toggleLike_twice_count aliceUser 7 (Store.mk [freshStory]) freshStory rfl rfl List.nodup_nil⟩
